import Mathlib

/-!
Verification development for the extraction engine of a single-page web
scraper.  The engine fetches one HTML page and derives structured results:
tables, hyperlinks, color literals, images, performance metrics and SEO
metrics.

The Python code is modelled shallowly:

* the parsed document is an explicit tree of element/text nodes
  (BeautifulSoup's soup is a list of root nodes, traversed in document
  order);
* external effects (the pandas table parser, `urljoin`, network probes,
  HEAD requests, the JSON parser) enter as explicit function parameters
  returning `Option`, so that a per-item failure is a `none`;
* Python string operations (`split`, `join`, `startswith`, `in`, `strip`,
  `lower`) are re-implemented on `List Char` / `String`;
* float arithmetic of the performance analyzer is idealized as rational
  arithmetic, with `round(x, 2)` modelled as round-half-to-even on `ℚ`.
-/

/-! ## Python-style character and string helpers -/

/-- Characters matched by Python's `str.strip()` / `\s` (ASCII part). -/
def pyIsSpace (c : Char) : Bool :=
  c = ' ' || c = '\t' || c = '\n' || c = '\r' || c = '\x0b' || c = '\x0c'

/-- Word characters for the regex `\b` boundary (ASCII `\w`). -/
def isWordChar (c : Char) : Bool :=
  c.isAlphanum || c = '_'

/-- Hexadecimal digit, as in the color regex character class. -/
def isHexDig (c : Char) : Bool :=
  c.isDigit || ('a' ≤ c && c ≤ 'f') || ('A' ≤ c && c ≤ 'F')

/-- Python `s.startswith(p)`. -/
def py_startswith (s p : String) : Bool :=
  p.toList.isPrefixOf s.toList

/-- Python `needle in hay` on lists of characters (substring test). -/
def pyInChars (needle : List Char) : List Char → Bool
  | [] => needle.isEmpty
  | c :: t => needle.isPrefixOf (c :: t) || pyInChars needle t

/-- Python `needle in hay` on strings. -/
def pyIn (needle hay : String) : Bool :=
  pyInChars needle.toList hay.toList

/-- Python `s.strip()`: drop whitespace from both ends. -/
def py_strip (s : String) : String :=
  String.mk (((s.toList.dropWhile pyIsSpace).reverse.dropWhile pyIsSpace).reverse)

/-- Python `s.split(sep)` for a one-character separator (keeps empty parts;
`"".split(sep) = [""]`). -/
def pySplit (sep : Char) : List Char → List (List Char)
  | [] => [[]]
  | c :: cs =>
    if c = sep then [] :: pySplit sep cs
    else
      match pySplit sep cs with
      | [] => [[c]]
      | t :: ts => (c :: t) :: ts

/-- Python `sep.join(parts)` for a one-character separator. -/
def pyIntercalate (sep : Char) : List (List Char) → List Char
  | [] => []
  | [x] => x
  | x :: xs => x ++ sep :: pyIntercalate sep xs

/-- The suffix of `l` strictly after the last occurrence of `sep`
(all of `l` when `sep` does not occur). -/
def last_seg (sep : Char) : List Char → List Char
  | [] => []
  | c :: cs =>
    if sep ∈ cs then last_seg sep cs
    else if c = sep then cs else c :: cs

/-- The part of `l` strictly before the last occurrence of `sep`
(empty when `sep` does not occur). -/
def before_last (sep : Char) : List Char → List Char
  | [] => []
  | c :: cs => if sep ∈ cs then c :: before_last sep cs else []

/-- Auxiliary length bound used for termination of the word splitter. -/
theorem length_dropWhile_le' (p : α → Bool) : ∀ l : List α, (l.dropWhile p).length ≤ l.length
  | [] => Nat.le_refl _
  | a :: l => by
    by_cases h : p a
    · simpa [List.dropWhile, h] using Nat.le_succ_of_le (length_dropWhile_le' p l)
    · simp [List.dropWhile, h]

/-- Python `s.split()` with no argument: maximal runs of non-whitespace. -/
def py_words : List Char → List (List Char)
  | [] => []
  | c :: cs =>
    if pyIsSpace c then py_words cs
    else (c :: cs.takeWhile (fun a => !pyIsSpace a)) ::
      py_words (cs.dropWhile (fun a => !pyIsSpace a))
termination_by l => l.length
decreasing_by
  · simp
  · simp only [List.length_cons]
    exact Nat.lt_succ_of_le (length_dropWhile_le' _ _)

/-- Replace every occurrence of character `a` by `b` (the effect of
`df.replace('\n', ' ', regex=True)` on a cell string, one character at a
time). -/
def py_replace_char (a b : Char) (s : String) : String :=
  String.mk (s.toList.map (fun c => if c = a then b else c))

/-! ## The document tree

BeautifulSoup's parsed document is modelled as a list of root nodes; each
node is an element (tag name, attribute list, children) or a text node.
`find_all` traversals return elements in document order, i.e. pre-order. -/

inductive Node where
  | elem (tag : String) (attrs : List (String × String)) (children : List Node)
  | text (s : String)

def tagOf : Node → Option String
  | .elem t _ _ => some t
  | .text _ => none

/-- BeautifulSoup `tag.get(key)`: attribute lookup. -/
def getAttr (n : Node) (k : String) : Option String :=
  match n with
  | .elem _ attrs _ => (attrs.find? (fun p => p.1 == k)).map (·.2)
  | .text _ => none

mutual

/-- All elements of a node, itself included, in document (pre-)order. -/
def elemsN : Node → List Node
  | .text _ => []
  | .elem t a cs => Node.elem t a cs :: elemsL cs

/-- All elements of a node list in document (pre-)order. -/
def elemsL : List Node → List Node
  | [] => []
  | n :: ns => elemsN n ++ elemsL ns

end

mutual

/-- All text-node strings of a node in document order. -/
def textsN : Node → List String
  | .text s => [s]
  | .elem _ _ cs => textsL cs

/-- All text-node strings of a node list in document order. -/
def textsL : List Node → List String
  | [] => []
  | n :: ns => textsN n ++ textsL ns

end

mutual

/-- Serialization of a node, standing in for `str(soup)`. -/
def renderN : Node → String
  | .text s => s
  | .elem t a cs =>
    "<" ++ t ++ String.join (a.map (fun p => " " ++ p.1 ++ "=\"" ++ p.2 ++ "\"")) ++ ">"
      ++ renderL cs ++ "</" ++ t ++ ">"

/-- Serialization of a node list. -/
def renderL : List Node → String
  | [] => ""
  | n :: ns => renderN n ++ renderL ns

end

/-- `soup.find_all(t)`: all elements with tag `t`, in document order. -/
def find_all_tag (t : String) (doc : List Node) : List Node :=
  (elemsL doc).filter (fun n =>
    match tagOf n with
    | some s => s == t
    | none => false)

/-- `soup.find_all(..., attr=True)` style search: elements with tag `t`
that carry attribute `k`. -/
def find_all_tag_attr (t k : String) (doc : List Node) : List Node :=
  (elemsL doc).filter (fun n =>
    match tagOf n with
    | some s => s == t && (getAttr n k).isSome
    | none => false)

/-- `soup.find_all(t, attr=v)`: elements with tag `t` whose attribute `k`
has value `v`. -/
def find_all_tag_attr_val (t k v : String) (doc : List Node) : List Node :=
  (elemsL doc).filter (fun n =>
    match tagOf n with
    | some s => s == t && (getAttr n k) == some v
    | none => false)

/-- `node.get_text(strip=True)`: concatenation of all text-node strings,
each stripped of surrounding whitespace. -/
def get_text_strip (n : Node) : String :=
  String.join ((textsN n).map py_strip)

/-- `soup.get_text(strip=True)` for the whole document. -/
def get_text_strip_doc (doc : List Node) : String :=
  String.join ((textsL doc).map py_strip)

/-! ## Table extractor (`scrape_tables`)

The pandas call `pd.read_html(str(table))[0]` is an external parser; it is
modelled as a parameter `parse : Node → Option Table` (`none` = the
`except Exception: continue` path). -/

/-- A parsed table: rows of cell strings. -/
abbrev Table := List (List String)

/-- Cell cleanup: `df.replace('\n', ' ', regex=True)` then the same for
`'\r'`. -/
def clean_table (t : Table) : Table :=
  t.map (fun row => row.map (fun cell =>
    py_replace_char '\r' ' ' (py_replace_char '\n' ' ' cell)))

/-- The `for table in table_elements: try ... except: continue` loop with
its `tables.append` accumulator. -/
def scrape_tables_loop (parse : Node → Option Table) (acc : List Table) :
    List Node → List Table
  | [] => acc
  | t :: ts =>
    match parse t with
    | some df => scrape_tables_loop parse (acc ++ [clean_table df]) ts
    | none => scrape_tables_loop parse acc ts

/-- `scrape_tables`: find all `<table>` elements and convert each one that
parses, skipping the ones that do not. -/
def scrape_tables (doc : List Node) (parse : Node → Option Table) : List Table :=
  scrape_tables_loop parse [] (find_all_tag "table" doc)

/-! ## Link extractor (`get_all_urls`)

`urljoin` is the Python standard library's resolver; it enters as the
parameter `resolve : String → String → String` (page URL, raw href ↦
absolute URL). -/

structure LinkRec where
  /-- resolved absolute URL -/
  url : String
  /-- visible text (placeholder when empty) -/
  text : String
  /-- the `type` column: Internal / External / Anchor / Email / Phone -/
  ltype : String
deriving DecidableEq, Repr

/-- Link classification exactly as in the code: first Internal/External by
substring test on the resolved URL, then overridden by the `#`, `mailto:`,
`tel:` prefix checks on the raw href. -/
def link_type (pageUrl href absUrl : String) : String :=
  let t := if pyIn pageUrl absUrl then "Internal" else "External"
  if py_startswith href "#" then "Anchor"
  else if py_startswith href "mailto:" then "Email"
  else if py_startswith href "tel:" then "Phone"
  else t

/-- The record built for one `<a>` tag: skipped when there is no href or
the href is empty (`if href:`), otherwise resolved and classified. -/
def link_record_of (pageUrl : String) (resolve : String → String → String)
    (a : Node) : Option LinkRec :=
  match getAttr a "href" with
  | none => none
  | some h =>
    if h = "" then none
    else
      let absUrl := resolve pageUrl h
      let t := get_text_strip a
      some { url := absUrl
             text := if t = "" then "[No Text]" else t
             ltype := link_type pageUrl h absUrl }

/-- The raw rows of `urls_data`, before deduplication. -/
def link_records (pageUrl : String) (resolve : String → String → String)
    (doc : List Node) : List LinkRec :=
  (find_all_tag "a" doc).filterMap (link_record_of pageUrl resolve)

/-- `df.drop_duplicates(subset=['url'])`: keep the first row for each
`url`, preserving order. -/
def drop_dup_urls (seen : List String) : List LinkRec → List LinkRec
  | [] => []
  | r :: rs =>
    if r.url ∈ seen then drop_dup_urls seen rs
    else r :: drop_dup_urls (r.url :: seen) rs

/-- `get_all_urls`: extract, classify and deduplicate all links. -/
def get_all_urls (pageUrl : String) (resolve : String → String → String)
    (doc : List Node) : List LinkRec :=
  drop_dup_urls [] (link_records pageUrl resolve doc)

/-! ## Color extractor (`get_colors`)

The three regular expressions of the code are implemented as explicit
character-level matchers with Python `re` semantics (leftmost,
non-overlapping matches; ordered alternation in the hex pattern):

* hex: `#([0-9a-fA-F]{3}|[0-9a-fA-F]{6})\b`
* rgb: `rgb\(\s*(\d+)\s*,\s*(\d+)\s*,\s*(\d+)\s*\)`
* rgba: `rgba\(\s*(\d+)\s*,\s*(\d+)\s*,\s*(\d+)\s*,\s*([0-1]\.?\d*)\s*\)`
-/

/-- Match a literal character sequence, returning the rest. -/
def matchLit : List Char → List Char → Option (List Char)
  | [], cs => some cs
  | _ :: _, [] => none
  | l :: ls, c :: cs => if c = l then matchLit ls cs else none

/-- `\s*`: skip whitespace greedily. -/
def skip_ws (cs : List Char) : List Char := cs.dropWhile pyIsSpace

/-- `\s*(\d+)`: skip whitespace then one-or-more digits; rest after the
digits, `none` when there is no digit. -/
def num_then (cs : List Char) : Option (List Char) :=
  let r := skip_ws cs
  let ds := r.takeWhile Char.isDigit
  if ds.isEmpty then none else some (r.drop ds.length)

/-- `\b` after a word character: next character absent or not a word
character. -/
def word_boundary_after (cs : List Char) : Bool :=
  match cs with
  | [] => true
  | c :: _ => !isWordChar c

/-- Try exactly `n` hex digits followed by a word boundary. -/
def hex_try (n : Nat) (rest : List Char) : Option (List Char × List Char) :=
  let ds := rest.take n
  if ds.length = n && ds.all isHexDig && word_boundary_after (rest.drop n) then
    some ('#' :: ds, rest.drop n)
  else none

/-- The hex pattern at the current position: `#`, then the 3-digit
alternative, then (on failure, as the regex backtracks) the 6-digit one. -/
def hex_match_at : List Char → Option (List Char × List Char)
  | '#' :: rest =>
    match hex_try 3 rest with
    | some r => some r
    | none => hex_try 6 rest
  | _ => none

/-- The rgb pattern at the current position. -/
def rgb_match_at (cs : List Char) : Option (List Char × List Char) :=
  ((matchLit ['r', 'g', 'b', '('] cs).bind fun r0 =>
   (num_then r0).bind fun r1 =>
   (matchLit [','] (skip_ws r1)).bind fun r2 =>
   (num_then r2).bind fun r3 =>
   (matchLit [','] (skip_ws r3)).bind fun r4 =>
   (num_then r4).bind fun r5 =>
   matchLit [')'] (skip_ws r5)).map fun rest =>
    (cs.take (cs.length - rest.length), rest)

/-- `([0-1]\.?\d*)`: the alpha component. -/
def alpha_then (cs : List Char) : Option (List Char) :=
  match skip_ws cs with
  | [] => none
  | a :: r =>
    if a = '0' || a = '1' then
      let r1 := match r with
        | '.' :: rr => rr
        | _ => r
      some (r1.dropWhile Char.isDigit)
    else none

/-- The rgba pattern at the current position. -/
def rgba_match_at (cs : List Char) : Option (List Char × List Char) :=
  ((matchLit ['r', 'g', 'b', 'a', '('] cs).bind fun r0 =>
   (num_then r0).bind fun r1 =>
   (matchLit [','] (skip_ws r1)).bind fun r2 =>
   (num_then r2).bind fun r3 =>
   (matchLit [','] (skip_ws r3)).bind fun r4 =>
   (num_then r4).bind fun r5 =>
   (matchLit [','] (skip_ws r5)).bind fun r6 =>
   (alpha_then r6).bind fun r7 =>
   matchLit [')'] (skip_ws r7)).map fun rest =>
    (cs.take (cs.length - rest.length), rest)

/-- `re.finditer`, fuel-indexed for structural recursion: scan left to
right; at each position try the pattern; on success emit the match and
resume after it (non-overlapping), otherwise advance one character.  (Our
patterns never produce empty matches; the length guard only protects the
fuel bound.) -/
def finditer_fuel (m : List Char → Option (List Char × List Char)) :
    Nat → List Char → List (List Char)
  | 0, _ => []
  | _ + 1, [] => []
  | fuel + 1, c :: cs =>
    match m (c :: cs) with
    | some (mat, rest) =>
      if rest.length < cs.length + 1 then mat :: finditer_fuel m fuel rest
      else finditer_fuel m fuel cs
    | none => finditer_fuel m fuel cs

/-- `re.finditer`: the fuel `l.length` always suffices, since every step
recurses on a strictly shorter list. -/
def finditer (m : List Char → Option (List Char × List Char))
    (l : List Char) : List (List Char) :=
  finditer_fuel m l.length l

structure ColorRec where
  /-- the exact matched substring -/
  color : String
  /-- format tag: hex / rgb / rgba -/
  format : String
  /-- source tag: CSS / Inline / External CSS -/
  source : String
deriving DecidableEq, Repr

/-- The inner loop of `process_style_content` for one pattern: each match
appends one record, dispatching on the format name as the code's
if/elif chain does. -/
def pattern_loop (fmtName source : String) (acc : List ColorRec)
    (ms : List (List Char)) : List ColorRec :=
  ms.foldl (fun a m =>
    let cv := String.mk m
    if fmtName = "hex" then a ++ [{ color := cv, format := "hex", source := source }]
    else if fmtName = "rgb" then a ++ [{ color := cv, format := "rgb", source := source }]
    else if fmtName = "rgba" then a ++ [{ color := cv, format := "rgba", source := source }]
    else a) acc

/-- The `color_patterns` dict, in insertion order. -/
def color_patterns : List (String × (List Char → Option (List Char × List Char))) :=
  [("hex", hex_match_at), ("rgb", rgb_match_at), ("rgba", rgba_match_at)]

/-- `process_style_content(content, source)`: scan one style text with the
three patterns in dict order, appending a record per match. -/
def process_style_content (content source : String) : List ColorRec :=
  color_patterns.foldl
    (fun acc p => pattern_loop p.1 source acc (finditer p.2 content.toList)) []

/-- BeautifulSoup `tag.string`: the single text child, when there is
exactly one child and it is a text node. -/
def style_string (n : Node) : Option String :=
  match n with
  | .elem _ _ [Node.text s] => some s
  | _ => none

/-- Elements carrying a given attribute, any tag
(`soup.find_all(style=True)`). -/
def find_all_attr (k : String) (doc : List Node) : List Node :=
  (elemsL doc).filter (fun n => (getAttr n k).isSome)

/-- The URL from which an external stylesheet is fetched: kept as-is when
it already starts with `http://` or `https://`, otherwise
`'/'.join(url.split('/')[:-1]) + '/' + href`. -/
def css_fetch_url (pageUrl href : String) : String :=
  if py_startswith href "http://" || py_startswith href "https://" then href
  else
    String.mk (pyIntercalate '/' ((pySplit '/' pageUrl.toList).dropLast)) ++ "/" ++ href

/-- Final deduplication by `(color, format)`, order-preserving. -/
def dedup_colors (seen : List (String × String)) : List ColorRec → List ColorRec
  | [] => []
  | c :: cs =>
    if (c.color, c.format) ∈ seen then dedup_colors seen cs
    else c :: dedup_colors ((c.color, c.format) :: seen) cs

/-- `get_colors`: scan style blocks (source CSS), inline style attributes
(source Inline) and fetched external stylesheets (source External CSS),
then deduplicate.  `fetchCss` is the best-effort GET: `none` covers both a
raised exception and a non-ok response. -/
def get_colors (pageUrl : String) (fetchCss : String → Option String)
    (doc : List Node) : List ColorRec :=
  let c1 := (find_all_tag "style" doc).foldl (fun acc st =>
    match style_string st with
    | some s => acc ++ process_style_content s "CSS"
    | none => acc) []
  let c2 := (find_all_attr "style" doc).foldl (fun acc tg =>
    match getAttr tg "style" with
    | some s => acc ++ process_style_content s "Inline"
    | none => acc) c1
  let c3 := (find_all_tag_attr_val "link" "rel" "stylesheet" doc).foldl (fun acc lk =>
    match getAttr lk "href" with
    | some h =>
      if h = "" then acc
      else
        match fetchCss (css_fetch_url pageUrl h) with
        | some body => acc ++ process_style_content body "External CSS"
        | none => acc
    | none => acc) c2
  dedup_colors [] c3

/-! ## Standard URL resolution (spec side, for comparing with
`css_fetch_url`) -/

/-- `scheme://host` part of a hierarchical http(s) URL. -/
def origin_of (url : String) : String :=
  if py_startswith url "http://" then
    String.mk ('h' :: 't' :: 't' :: 'p' :: ':' :: '/' :: '/' ::
      (url.toList.drop 7).takeWhile (fun c => c != '/'))
  else if py_startswith url "https://" then
    String.mk ('h' :: 't' :: 't' :: 'p' :: 's' :: ':' :: '/' :: '/' ::
      (url.toList.drop 8).takeWhile (fun c => c != '/'))
  else url

/-- Path part (from the first `/` after the authority; empty when none). -/
def path_of (url : String) : String :=
  if py_startswith url "http://" then
    String.mk ((url.toList.drop 7).dropWhile (fun c => c != '/'))
  else if py_startswith url "https://" then
    String.mk ((url.toList.drop 8).dropWhile (fun c => c != '/'))
  else ""

/-- RFC 3986 remove-dot-segments on a `/`-separated path. -/
def rds_loop (acc : List (List Char)) : List (List Char) → List (List Char)
  | [] => acc
  | s :: rest =>
    if s = ['.'] then rds_loop acc rest
    else if s = ['.', '.'] then
      rds_loop (if acc.length ≤ 1 then acc else acc.dropLast) rest
    else rds_loop (acc ++ [s]) rest

def normalize_path (p : List Char) : List Char :=
  pyIntercalate '/' (rds_loop [] (pySplit '/' p))

/-- Modelled from the spec: "the URL obtained by standard relative-URL
resolution of the href against the page's base URL".  This is RFC 3986
reference resolution as performed by the Python standard library's
`urljoin` (which the repository's code uses for links and images, but not
for stylesheets, whose fetch URL is `css_fetch_url`).  It covers absolute,
protocol-relative, root-relative and path-relative references against a
hierarchical http(s) base URL. -/
def std_resolve (base rel : String) : String :=
  if py_startswith rel "http://" || py_startswith rel "https://" then rel
  else if py_startswith rel "//" then
    (if py_startswith base "https://" then "https:" else "http:") ++ rel
  else if py_startswith rel "/" then
    origin_of base ++ String.mk (normalize_path rel.toList)
  else
    origin_of base ++
      String.mk (normalize_path
        (before_last '/' (path_of base).toList ++ '/' :: rel.toList))

/-! ## Image extractor (`get_images`)

The dimension probe (`requests.get(src, stream=True)` followed by
`Image.open`) enters as `probe : String → Option (Nat × Nat)`; `none`
covers any fetch or decode failure (the bare `except: pass`). -/

structure ImageRec where
  url : String
  alt : String
  title : String
  /-- declared attribute value, probed pixel count (as decimal string), or
  the `Not specified` sentinel -/
  width : String
  height : String
  /-- the `type` field: extension / data:image / unknown -/
  itype : String
deriving DecidableEq, Repr

/-- The `type` expression:
`'data:image' if src.startswith('data:') else src.split('.')[-1].lower()
if '.' in src else 'unknown'`. -/
def img_type (src : String) : String :=
  if py_startswith src "data:" then "data:image"
  else if '.' ∈ src.toList then
    (String.mk ((pySplit '.' src.toList).getLastD [])).toLower
  else "unknown"

/-- Resolution of the `src` attribute: kept when already absolute or a
data URI, otherwise resolved against the page URL with `urljoin`
(parameter `resolve`). -/
def resolve_img_src (pageUrl : String) (resolve : String → String → String)
    (s : String) : String :=
  if py_startswith s "http://" || py_startswith s "https://" || py_startswith s "data:" then s
  else resolve pageUrl s

/-- Processing of one `<img>` element: `none` when the source attribute is
absent or empty (`if not src: continue`). -/
def process_img (pageUrl : String) (resolve : String → String → String)
    (probe : String → Option (Nat × Nat)) (img : Node) : Option ImageRec :=
  let src0 := (getAttr img "src").getD ""
  if src0 = "" then none
  else
    let src := resolve_img_src pageUrl resolve src0
    let r0 : ImageRec :=
      { url := src
        alt := (getAttr img "alt").getD "No alt text"
        title := (getAttr img "title").getD "No title"
        width := (getAttr img "width").getD "Not specified"
        height := (getAttr img "height").getD "Not specified"
        itype := img_type src }
    if r0.width = "Not specified" && !py_startswith src "data:" then
      match probe src with
      | some wh => some { r0 with width := toString wh.1, height := toString wh.2 }
      | none => some r0
    else some r0

/-- `get_images`: one record per `<img>` with a non-empty source. -/
def get_images (pageUrl : String) (resolve : String → String → String)
    (probe : String → Option (Nat × Nat)) (doc : List Node) : List ImageRec :=
  (find_all_tag "img" doc).filterMap (process_img pageUrl resolve probe)

/-! ## Rounding

Python's `round(x, 2)` (round-half-to-even), idealized on `ℚ`. -/

/-- Round to the nearest integer, ties to even. -/
def round_half_even (q : ℚ) : ℤ :=
  if q - (⌊q⌋ : ℚ) < 1 / 2 then ⌊q⌋
  else if 1 / 2 < q - (⌊q⌋ : ℚ) then ⌊q⌋ + 1
  else if 2 ∣ ⌊q⌋ then ⌊q⌋ else ⌊q⌋ + 1

/-- `round(x, 2)`. -/
def py_round2 (q : ℚ) : ℚ :=
  (round_half_even (q * 100) : ℚ) / 100

/-! ## Performance analyzer (`analyze_performance`)

The fresh fetch is abstracted as a `PerfEnv`: the response's byte length,
timing, status, headers and encoding, plus the per-URL result of the
best-effort HEAD request (`head url = none` covers a raised exception;
a missing `content-length` header is `some 0`, the code's default). -/

structure PerfEnv where
  contentLen : Nat
  respTime : ℚ
  status : Nat
  headers : List (String × String)
  encoding : Option String
  head : String → Option Nat

/-- Per-category accumulated sizes (KB), the `resource_sizes`
defaultdict with all categories present. -/
structure Sizes where
  scripts : ℚ
  stylesheets : ℚ
  images : ℚ
deriving DecidableEq, Repr

structure PerfData where
  response_time : ℚ
  page_size : ℚ
  status_code : Nat
  content_type : String
  encoding : Option String
  compression : String
  cache_control : String
  server : String
  resources_scripts : Nat
  resources_stylesheets : Nat
  resources_images : Nat
  total_resources : Nat
  resource_sizes : Sizes
  total_page_weight : ℚ
deriving DecidableEq, Repr

/-- Case-insensitive header lookup (`requests` response headers). -/
def header_get (hs : List (String × String)) (k : String) : Option String :=
  (hs.find? (fun p => p.1.toLower == k.toLower)).map (·.2)

/-- `resource.get('src') or resource.get('href')`, with Python truthiness
(`None` and `''` both falsy), then `if src:`. -/
def eff_src (r : Node) : Option String :=
  let first := match getAttr r "src" with
    | some s => if s = "" then getAttr r "href" else some s
    | none => getAttr r "href"
  match first with
  | some s => if s = "" then none else some s
  | none => none

/-- The resolved URL a resource's HEAD request is sent to. -/
def res_head_url (pageUrl : String) (resolve : String → String → String)
    (s : String) : String :=
  if py_startswith s "http://" || py_startswith s "https://" then s
  else resolve pageUrl s

/-- One step of the resource-size loop: skip resources without a usable
source and failed HEAD requests, otherwise add
`content-length / 1024` to the category selected by the tag name. -/
def res_size_step (pageUrl : String) (resolve : String → String → String)
    (head : String → Option Nat) (s : Sizes) (r : Node) : Sizes :=
  match eff_src r with
  | none => s
  | some s0 =>
    match head (res_head_url pageUrl resolve s0) with
    | none => s
    | some bytes =>
      let sz : ℚ := (bytes : ℚ) / 1024
      if tagOf r = some "script" then { s with scripts := s.scripts + sz }
      else if tagOf r = some "link" then { s with stylesheets := s.stylesheets + sz }
      else if tagOf r = some "img" then { s with images := s.images + sz }
      else s

/-- The KB contribution of one resource (0 when skipped), used to state
what the loop accumulates. -/
def resource_kb (pageUrl : String) (resolve : String → String → String)
    (head : String → Option Nat) (r : Node) : ℚ :=
  match eff_src r with
  | none => 0
  | some s0 =>
    match head (res_head_url pageUrl resolve s0) with
    | none => 0
    | some bytes => (bytes : ℚ) / 1024

/-- Sum of `resource_kb` over the resources with a given tag name. -/
def cat_kb_sum (pageUrl : String) (resolve : String → String → String)
    (head : String → Option Nat) (tag : String) (rs : List Node) : ℚ :=
  ((rs.filter (fun r => tagOf r = some tag)).map (resource_kb pageUrl resolve head)).sum

/-- `analyze_performance`. -/
def analyze_performance (pageUrl : String) (resolve : String → String → String)
    (env : PerfEnv) (doc : List Node) : PerfData :=
  let scripts := find_all_tag_attr "script" "src" doc
  let styles := find_all_tag_attr_val "link" "rel" "stylesheet" doc
  let images := find_all_tag "img" doc
  let rawSizes := (scripts ++ styles ++ images).foldl
    (res_size_step pageUrl resolve env.head) ⟨0, 0, 0⟩
  let sizes : Sizes :=
    { scripts := py_round2 rawSizes.scripts
      stylesheets := py_round2 rawSizes.stylesheets
      images := py_round2 rawSizes.images }
  let pageSize : ℚ := (env.contentLen : ℚ) / 1024
  { response_time := py_round2 env.respTime
    page_size := pageSize
    status_code := env.status
    content_type := (header_get env.headers "content-type").getD "Not specified"
    encoding := env.encoding
    compression := (header_get env.headers "content-encoding").getD "None"
    cache_control := (header_get env.headers "cache-control").getD "Not specified"
    server := (header_get env.headers "server").getD "Not specified"
    resources_scripts := scripts.length
    resources_stylesheets := styles.length
    resources_images := images.length
    total_resources := scripts.length + styles.length + images.length
    resource_sizes := sizes
    total_page_weight :=
      py_round2 (pageSize + (sizes.scripts + sizes.stylesheets + sizes.images)) }

/-- The `scripts + styles + images` list the resource-size loop walks. -/
def perf_resources (doc : List Node) : List Node :=
  find_all_tag_attr "script" "src" doc
    ++ find_all_tag_attr_val "link" "rel" "stylesheet" doc
    ++ find_all_tag "img" doc

/-! ## SEO analyzer (`analyze_seo`)

`json.loads` enters as `jsonParse : String → Option String` (the parsed
blob is kept abstract as its accepted source text; `none` is a parse
failure, skipped silently).  The analyzer fails — Python raises
`AttributeError` inside the `seo_data` literal, re-raised as a descriptive
`Exception` — exactly when the document has no `<html>` element, because
`soup.html` is then `None` and `.get('lang', ...)` dereferences it. -/

/-- Python truthiness filter for optional strings: `None` and `''` are
falsy. -/
def truthy (o : Option String) : Option String :=
  match o with
  | some s => if s = "" then none else some s
  | none => none

/-- Python dict insertion: overwrite in place, else append. -/
def dict_upsert (m : List (String × Option String)) (k : String)
    (v : Option String) : List (String × Option String) :=
  if (m.find? (fun p => p.1 == k)).isSome then
    m.map (fun p => if p.1 == k then (p.1, v) else p)
  else m ++ [(k, v)]

/-- Python dict lookup: `some v` when the key is present (the stored value
may itself be `None`). -/
def dict_get (m : List (String × Option String)) (k : String) :
    Option (Option String) :=
  (m.find? (fun p => p.1 == k)).map (·.2)

/-- One `<meta>` tag: keyed by `name`, else by `property` (truthiness
checks as in the code). -/
def meta_step (m : List (String × Option String)) (tg : Node) :
    List (String × Option String) :=
  match truthy (getAttr tg "name") with
  | some n => dict_upsert m n (getAttr tg "content")
  | none =>
    match truthy (getAttr tg "property") with
    | some p => dict_upsert m p (getAttr tg "content")
    | none => m

structure LinkCounts where
  internal : Nat
  external : Nat
  nofollow : Nat
deriving DecidableEq, Repr

/-- The internal/external classification of the SEO link loop: anchors
whose href starts with `http://` or `https://` are internal iff the page
URL occurs in the raw href, every other anchor (relative href, empty href,
no href at all) is internal. -/
def seo_link_internal (pageUrl : String) (a : Node) : Bool :=
  let href := (getAttr a "href").getD ""
  if py_startswith href "http://" || py_startswith href "https://" then
    pyIn pageUrl href
  else true

/-- `link.get('rel') and 'nofollow' in link.get('rel')` — `rel` is a
multi-valued attribute, a list of whitespace-separated tokens. -/
def rel_nofollow (a : Node) : Bool :=
  match getAttr a "rel" with
  | some r => (py_words r.toList).contains "nofollow".toList
  | none => false

/-- One step of the link-counting loop. -/
def seo_link_step (pageUrl : String) (c : LinkCounts) (a : Node) : LinkCounts :=
  let href := (getAttr a "href").getD ""
  let c1 :=
    if py_startswith href "http://" || py_startswith href "https://" then
      (if pyIn pageUrl href then { c with internal := c.internal + 1 }
       else { c with external := c.external + 1 })
    else { c with internal := c.internal + 1 }
  if rel_nofollow a then { c1 with nofollow := c1.nofollow + 1 } else c1

structure SeoData where
  meta_tags : List (String × Option String)
  headings : List (String × List String)
  images_with_alt : Nat
  images_without_alt : Nat
  links : LinkCounts
  structured_data : List String
  canonical_url : Option String
  robots_meta : Option String
  viewport : Option String
  lang : String
  /-- the `text_html_ratio` field: text/HTML percentage, 2 decimals -/
  text_html_pct : ℚ
  word_count : Nat
deriving DecidableEq, Repr

/-- The wrapped error raised when `soup.html` is `None` (Python:
`AttributeError` re-raised as `Exception("Error analyzing SEO: ...")`). -/
def seo_error_msg : String :=
  "Error analyzing SEO: NoneType object has no attribute get"

/-- `analyze_seo`. -/
def analyze_seo (pageUrl : String) (jsonParse : String → Option String)
    (doc : List Node) : Except String SeoData :=
  match (elemsL doc).find? (fun n =>
      match tagOf n with
      | some t => t == "html"
      | none => false) with
  | none => .error seo_error_msg
  | some htmlEl =>
    let meta := (find_all_tag "meta" doc).foldl meta_step []
    let robots := match dict_get meta "robots" with
      | some v => v
      | none => some "Not specified"
    let viewport := match dict_get meta "viewport" with
      | some v => v
      | none => some "Not specified"
    let canonical := match (find_all_tag_attr_val "link" "rel" "canonical" doc).head? with
      | some c => getAttr c "href"
      | none => none
    let headings := ["h1", "h2", "h3", "h4", "h5", "h6"].map
      (fun t => (t, (find_all_tag t doc).map get_text_strip))
    let alts := (find_all_tag "img" doc).foldl (fun (p : Nat × Nat) img =>
      match truthy (getAttr img "alt") with
      | some _ => (p.1 + 1, p.2)
      | none => (p.1, p.2 + 1)) (0, 0)
    let lks := (find_all_tag "a" doc).foldl (seo_link_step pageUrl) ⟨0, 0, 0⟩
    let sdata := (find_all_tag_attr_val "script" "type" "application/ld+json" doc).foldl
      (fun acc s =>
        match style_string s with
        | some str =>
          match jsonParse str with
          | some j => acc ++ [j]
          | none => acc
        | none => acc) []
    let textContent := get_text_strip_doc doc
    let htmlContent := renderL doc
    .ok { meta_tags := meta
          headings := headings
          images_with_alt := alts.1
          images_without_alt := alts.2
          links := lks
          structured_data := sdata
          canonical_url := canonical
          robots_meta := robots
          viewport := viewport
          lang := (getAttr htmlEl "lang").getD "Not specified"
          text_html_pct := py_round2 (((textContent.length : ℚ) / (htmlContent.length : ℚ)) * 100)
          word_count := (py_words textContent.toList).length }

/-! ## Concrete inputs used by witnesses -/

/-- A minimal document with an `<html>` root and two anchors: one without
any href, one with an absolute external href. -/
def c10_doc : List Node :=
  [Node.elem "html" []
    [Node.elem "a" [] [Node.text "x"],
     Node.elem "a" [("href", "http://other.com/")] []]]

/-- Fallback record (unused branch of `c10_sd`). -/
def seo_fallback : SeoData :=
  { meta_tags := [], headings := [], images_with_alt := 0,
    images_without_alt := 0, links := ⟨0, 0, 0⟩, structured_data := [],
    canonical_url := none, robots_meta := none, viewport := none,
    lang := "", text_html_pct := 0, word_count := 0 }

/-- The SEO record the analyzer computes on `c10_doc`. -/
def c10_sd : SeoData :=
  match analyze_seo "http://mysite.com" (fun _ => none) c10_doc with
  | .ok sd => sd
  | .error _ => seo_fallback

/-! # Theorems -/

/-! ## Generic list lemmas -/

theorem scrape_tables_loop_eq (parse : Node → Option Table) :
    ∀ (ts : List Node) (acc : List Table),
      scrape_tables_loop parse acc ts
        = acc ++ ts.filterMap (fun t => (parse t).map clean_table) := by
  intro ts
  induction ts with
  | nil => intro acc; simp [scrape_tables_loop]
  | cons t ts ih =>
    intro acc
    cases h : parse t with
    | none => simp [scrape_tables_loop, h, ih]
    | some df => simp [scrape_tables_loop, h, ih, List.append_assoc]

theorem length_filterMap_eq_countP (f : α → Option β) :
    ∀ l : List α, (l.filterMap f).length = l.countP (fun a => (f a).isSome) := by
  intro l
  induction l with
  | nil => simp
  | cons a l ih =>
    cases h : f a with
    | none => simp [List.filterMap_cons, h, ih, List.countP_cons]
    | some b => simp [List.filterMap_cons, h, ih, List.countP_cons]

/-- C1: for a fetched document with N well-formed `<table>` elements (those
the table parser accepts) and M malformed ones (those it rejects), table
extraction returns exactly the N parsed records in document order; a parse
failure on one table is skipped silently and never aborts the rest. -/
theorem scrape_tables_skips_malformed (doc : List Node) (parse : Node → Option Table) :
    scrape_tables doc parse
      = (find_all_tag "table" doc).filterMap (fun t => (parse t).map clean_table)
    ∧ (scrape_tables doc parse).length
      = (find_all_tag "table" doc).countP (fun t => (parse t).isSome) := by
  constructor
  · simp [scrape_tables, scrape_tables_loop_eq]
  · rw [scrape_tables, scrape_tables_loop_eq]
    simp only [List.nil_append, length_filterMap_eq_countP]
    exact List.countP_congr (fun t _ => by cases parse t <;> simp)

/-- C2: a link with a href is classified Anchor when the raw href starts
with `#`, Email when it starts with `mailto:`, Phone when it starts with
`tel:` (these take precedence), otherwise Internal exactly when the
resolved absolute URL contains the page URL as a substring, else
External. -/
theorem link_type_classification (pageUrl : String)
    (resolve : String → String → String) (a : Node)
    (href href2 absUrl2 : String)
    (h1 : getAttr a "href" = some href) (h2 : href ≠ "") :
    (link_record_of pageUrl resolve a).map LinkRec.ltype
      = some (link_type pageUrl href (resolve pageUrl href))
    ∧ link_type pageUrl href2 absUrl2 =
        (if py_startswith href2 "#" then "Anchor"
         else if py_startswith href2 "mailto:" then "Email"
         else if py_startswith href2 "tel:" then "Phone"
         else if pyIn pageUrl absUrl2 then "Internal" else "External") := by
  constructor
  · unfold link_record_of
    rw [h1]
    simp [h2]
  · unfold link_type
    cases hb1 : py_startswith href2 "#" <;>
      cases hb2 : py_startswith href2 "mailto:" <;>
        cases hb3 : py_startswith href2 "tel:" <;>
          cases hb4 : pyIn pageUrl absUrl2 <;>
            simp [hb1, hb2, hb3, hb4]

/-- Witness for C2 at a concrete anchor. -/
theorem link_type_classification_witness :
    (getAttr (Node.elem "a" [("href", "mailto:bob@x.com")] [Node.text "mail"]) "href"
        = some "mailto:bob@x.com")
    ∧ ("mailto:bob@x.com" ≠ "")
    ∧ ((link_record_of "http://s.com" (fun _ h => h)
          (Node.elem "a" [("href", "mailto:bob@x.com")] [Node.text "mail"])).map LinkRec.ltype
        = some (link_type "http://s.com" "mailto:bob@x.com"
            ((fun _ h => h : String → String → String) "http://s.com" "mailto:bob@x.com"))
       ∧ link_type "http://s.com" "mailto:bob@x.com" "mailto:bob@x.com" =
          (if py_startswith "mailto:bob@x.com" "#" then "Anchor"
           else if py_startswith "mailto:bob@x.com" "mailto:" then "Email"
           else if py_startswith "mailto:bob@x.com" "tel:" then "Phone"
           else if pyIn "http://s.com" "mailto:bob@x.com" then "Internal" else "External")) :=
  ⟨rfl, by decide,
    link_type_classification "http://s.com" (fun _ h => h)
      (Node.elem "a" [("href", "mailto:bob@x.com")] [Node.text "mail"])
      "mailto:bob@x.com" "mailto:bob@x.com" "mailto:bob@x.com" rfl (by decide)⟩

/-! ## C3: deduplication lemmas -/

theorem drop_dup_urls_sublist :
    ∀ (rs : List LinkRec) (seen : List String), (drop_dup_urls seen rs).Sublist rs := by
  intro rs
  induction rs with
  | nil => intro seen; simp [drop_dup_urls]
  | cons r rs ih =>
    intro seen
    by_cases h : r.url ∈ seen
    · simpa [drop_dup_urls, h] using (ih seen).cons r
    · simpa [drop_dup_urls, h] using (ih (r.url :: seen)).cons₂ r

theorem drop_dup_urls_nodup :
    ∀ (rs : List LinkRec) (seen : List String),
      ((drop_dup_urls seen rs).map LinkRec.url).Nodup
      ∧ ∀ r ∈ drop_dup_urls seen rs, r.url ∉ seen := by
  intro rs
  induction rs with
  | nil => intro seen; simp [drop_dup_urls]
  | cons r rs ih =>
    intro seen
    by_cases h : r.url ∈ seen
    · have e : drop_dup_urls seen (r :: rs) = drop_dup_urls seen rs := by
        rw [drop_dup_urls, if_pos h]
      rw [e]
      exact ih seen
    · have e : drop_dup_urls seen (r :: rs) = r :: drop_dup_urls (r.url :: seen) rs := by
        rw [drop_dup_urls, if_neg h]
      obtain ⟨hn, hs⟩ := ih (r.url :: seen)
      rw [e]
      constructor
      · rw [List.map_cons, List.nodup_cons]
        refine ⟨?_, hn⟩
        intro hmem
        obtain ⟨x, hx, hxe⟩ := List.mem_map.mp hmem
        exact hs x hx (by rw [hxe]; exact List.mem_cons_self _ _)
      · intro x hx
        rcases List.mem_cons.mp hx with rfl | hx'
        · exact h
        · intro hmem
          exact hs x hx' (List.mem_cons_of_mem _ hmem)

theorem drop_dup_urls_find? :
    ∀ (rs : List LinkRec) (seen : List String) (u : String), u ∉ seen →
      u ∈ rs.map LinkRec.url →
      (drop_dup_urls seen rs).find? (fun r => r.url == u)
        = rs.find? (fun r => r.url == u) := by
  intro rs
  induction rs with
  | nil => simp
  | cons r rs ih =>
    intro seen u hu hmem
    by_cases h : r.url ∈ seen
    · have hne : ¬(r.url = u) := fun he => hu (he ▸ h)
      have e : drop_dup_urls seen (r :: rs) = drop_dup_urls seen rs := by
        rw [drop_dup_urls, if_pos h]
      have hmem' : u ∈ rs.map LinkRec.url := by
        rcases List.mem_map.mp hmem with ⟨x, hx, hxe⟩
        rcases List.mem_cons.mp hx with rfl | hx'
        · exact absurd hxe hne
        · exact List.mem_map.mpr ⟨x, hx', hxe⟩
      rw [e, List.find?_cons_of_neg _ (by simpa using hne)]
      exact ih seen u hu hmem'
    · by_cases he : r.url = u
      · have e : drop_dup_urls seen (r :: rs) = r :: drop_dup_urls (r.url :: seen) rs := by
          rw [drop_dup_urls, if_neg h]
        rw [e, List.find?_cons_of_pos _ (by simp [he]),
          List.find?_cons_of_pos _ (by simp [he])]
      · have e : drop_dup_urls seen (r :: rs) = r :: drop_dup_urls (r.url :: seen) rs := by
          rw [drop_dup_urls, if_neg h]
        have hmem' : u ∈ rs.map LinkRec.url := by
          rcases List.mem_map.mp hmem with ⟨x, hx, hxe⟩
          rcases List.mem_cons.mp hx with rfl | hx'
          · exact absurd hxe he
          · exact List.mem_map.mpr ⟨x, hx', hxe⟩
        rw [e, List.find?_cons_of_neg _ (by simp [he]),
          List.find?_cons_of_neg _ (by simp [he])]
        refine ih (r.url :: seen) u ?_ hmem'
        intro hc
        rcases List.mem_cons.mp hc with hc' | hc'
        · exact he hc'.symm
        · exact hu hc'

/-- C3: the returned link collection is the raw anchor records
deduplicated by resolved URL keeping the first occurrence: the output URLs
are pairwise distinct, the output is a sublist of the raw records (so
first-occurrence order of distinct URLs is preserved), and for every URL
occurring among the raw records the output contains exactly the first raw
record with that URL (hence the first-encountered text). -/
theorem link_dedup_first_wins (pageUrl : String)
    (resolve : String → String → String) (doc : List Node) (u : String)
    (hu : u ∈ (link_records pageUrl resolve doc).map LinkRec.url) :
    ((get_all_urls pageUrl resolve doc).map LinkRec.url).Nodup
    ∧ (get_all_urls pageUrl resolve doc).Sublist (link_records pageUrl resolve doc)
    ∧ (get_all_urls pageUrl resolve doc).find? (fun r => r.url == u)
        = (link_records pageUrl resolve doc).find? (fun r => r.url == u) :=
  ⟨(drop_dup_urls_nodup _ []).1, drop_dup_urls_sublist _ [],
    drop_dup_urls_find? _ [] u (by simp) hu⟩

/-- Witness for C3: two anchors with the same resolved URL but different
texts produce exactly one record, carrying the first text. -/
theorem link_dedup_first_wins_witness :
    ("http://x.com/p" ∈ (link_records "http://s.com" (fun _ h => h)
        [Node.elem "a" [("href", "http://x.com/p")] [Node.text "first"],
         Node.elem "a" [("href", "http://x.com/p")] [Node.text "second"]]).map LinkRec.url)
    ∧ (((get_all_urls "http://s.com" (fun _ h => h)
          [Node.elem "a" [("href", "http://x.com/p")] [Node.text "first"],
           Node.elem "a" [("href", "http://x.com/p")] [Node.text "second"]]).map LinkRec.url).Nodup
       ∧ (get_all_urls "http://s.com" (fun _ h => h)
            [Node.elem "a" [("href", "http://x.com/p")] [Node.text "first"],
             Node.elem "a" [("href", "http://x.com/p")] [Node.text "second"]]).Sublist
          (link_records "http://s.com" (fun _ h => h)
            [Node.elem "a" [("href", "http://x.com/p")] [Node.text "first"],
             Node.elem "a" [("href", "http://x.com/p")] [Node.text "second"]])
       ∧ (get_all_urls "http://s.com" (fun _ h => h)
            [Node.elem "a" [("href", "http://x.com/p")] [Node.text "first"],
             Node.elem "a" [("href", "http://x.com/p")] [Node.text "second"]]).find?
              (fun r => r.url == "http://x.com/p")
          = (link_records "http://s.com" (fun _ h => h)
              [Node.elem "a" [("href", "http://x.com/p")] [Node.text "first"],
               Node.elem "a" [("href", "http://x.com/p")] [Node.text "second"]]).find?
              (fun r => r.url == "http://x.com/p"))
    ∧ get_all_urls "http://s.com" (fun _ h => h)
        [Node.elem "a" [("href", "http://x.com/p")] [Node.text "first"],
         Node.elem "a" [("href", "http://x.com/p")] [Node.text "second"]]
      = [{ url := "http://x.com/p", text := "first", ltype := "External" }] :=
  ⟨by decide,
    link_dedup_first_wins "http://s.com" (fun _ h => h)
      [Node.elem "a" [("href", "http://x.com/p")] [Node.text "first"],
       Node.elem "a" [("href", "http://x.com/p")] [Node.text "second"]]
      "http://x.com/p" (by decide),
    by decide⟩

/-! ## C4: color pattern scanning -/

theorem foldl_snoc_eq_map (f : List Char → ColorRec) :
    ∀ (ms : List (List Char)) (acc : List ColorRec),
      ms.foldl (fun a m => a ++ [f m]) acc = acc ++ ms.map f := by
  intro ms
  induction ms with
  | nil => intro acc; simp
  | cons m ms ih => intro acc; simp [ih, List.append_assoc]

theorem pattern_loop_hex (source : String) (ms : List (List Char)) (acc : List ColorRec) :
    pattern_loop "hex" source acc ms
      = acc ++ ms.map (fun m =>
          { color := String.mk m, format := "hex", source := source }) :=
  foldl_snoc_eq_map _ ms acc

theorem pattern_loop_rgb (source : String) (ms : List (List Char)) (acc : List ColorRec) :
    pattern_loop "rgb" source acc ms
      = acc ++ ms.map (fun m =>
          { color := String.mk m, format := "rgb", source := source }) :=
  foldl_snoc_eq_map _ ms acc

theorem pattern_loop_rgba (source : String) (ms : List (List Char)) (acc : List ColorRec) :
    pattern_loop "rgba" source acc ms
      = acc ++ ms.map (fun m =>
          { color := String.mk m, format := "rgba", source := source }) :=
  foldl_snoc_eq_map _ ms acc

/-- C4: scanning one style-text source applies the hex pattern, then the
rgb pattern, then the rgba pattern, each non-overlapping match yielding
one record with the exact matched text, its format tag and the source tag;
in particular `"color: #fff; background: rgb(0,0,0);"` as an inline style
yields the hex record `#fff` followed by the rgb record `rgb(0,0,0)`. -/
theorem color_scan_priority :
    (∀ content source : String,
      process_style_content content source =
        (finditer hex_match_at content.toList).map (fun m =>
          { color := String.mk m, format := "hex", source := source })
        ++ (finditer rgb_match_at content.toList).map (fun m =>
          { color := String.mk m, format := "rgb", source := source })
        ++ (finditer rgba_match_at content.toList).map (fun m =>
          { color := String.mk m, format := "rgba", source := source }))
    ∧ process_style_content "color: #fff; background: rgb(0,0,0);" "Inline" =
        [{ color := "#fff", format := "hex", source := "Inline" },
         { color := "rgb(0,0,0)", format := "rgb", source := "Inline" }] := by
  constructor
  · intro content source
    show pattern_loop "rgba" source
        (pattern_loop "rgb" source
          (pattern_loop "hex" source [] (finditer hex_match_at content.toList))
          (finditer rgb_match_at content.toList))
        (finditer rgba_match_at content.toList) = _
    rw [pattern_loop_hex, pattern_loop_rgb, pattern_loop_rgba]
    simp [List.append_assoc]
  · decide

/-! ## C5, C6: `split` / `join` characterizations -/

theorem pySplit_ne_nil (sep : Char) : ∀ l : List Char, pySplit sep l ≠ [] := by
  intro l
  cases l with
  | nil => simp [pySplit]
  | cons c cs =>
    by_cases h : c = sep
    · simp [pySplit, h]
    · rw [pySplit, if_neg h]
      cases pySplit sep cs <;> simp

theorem pySplit_no_sep (sep : Char) : ∀ l : List Char, sep ∉ l → pySplit sep l = [l] := by
  intro l
  induction l with
  | nil => intro _; rfl
  | cons c cs ih =>
    intro h
    have hc : ¬(c = sep) := fun he => h (by rw [he]; exact List.mem_cons_self _ _)
    have hcs : sep ∉ cs := fun hm => h (List.mem_cons_of_mem _ hm)
    rw [pySplit, if_neg hc, ih hcs]

theorem pySplit_two_le (sep : Char) : ∀ l : List Char, sep ∈ l → 2 ≤ (pySplit sep l).length := by
  intro l
  induction l with
  | nil => intro h; simp at h
  | cons c cs ih =>
    intro h
    by_cases hc : c = sep
    · rw [pySplit, if_pos hc]
      cases hs : pySplit sep cs with
      | nil => exact absurd hs (pySplit_ne_nil sep cs)
      | cons t ts => simp
    · have hm : sep ∈ cs := by
        rcases List.mem_cons.mp h with he | hm
        · exact absurd he.symm hc
        · exact hm
      rw [pySplit, if_neg hc]
      cases hs : pySplit sep cs with
      | nil => exact absurd hs (pySplit_ne_nil sep cs)
      | cons t ts =>
        have h2 := ih hm
        rw [hs] at h2
        simpa using h2

theorem pyIntercalate_cons_cons (sep c : Char) (t : List Char) (xs : List (List Char)) :
    pyIntercalate sep ((c :: t) :: xs) = c :: pyIntercalate sep (t :: xs) := by
  cases xs <;> rfl

theorem pySplit_getLastD (sep : Char) : ∀ l : List Char,
    (pySplit sep l).getLastD [] = last_seg sep l := by
  intro l
  induction l with
  | nil => rfl
  | cons c cs ih =>
    by_cases hm : sep ∈ cs
    · rw [last_seg, if_pos hm]
      by_cases hc : c = sep
      · rw [pySplit, if_pos hc, List.getLastD_cons]
        exact ih
      · rw [pySplit, if_neg hc]
        cases hs : pySplit sep cs with
        | nil => exact absurd hs (pySplit_ne_nil sep cs)
        | cons t ts =>
          rw [hs] at ih
          cases ts with
          | nil =>
            have h2 := pySplit_two_le sep cs hm
            rw [hs] at h2
            simp at h2
          | cons u us =>
            rw [List.getLastD_cons, List.getLastD_cons]
            rw [List.getLastD_cons, List.getLastD_cons] at ih
            exact ih
    · rw [last_seg, if_neg hm]
      have hs := pySplit_no_sep sep cs hm
      by_cases hc : c = sep
      · rw [pySplit, if_pos hc, hs, if_pos hc, List.getLastD_cons, List.getLastD_cons]
        rfl
      · rw [pySplit, if_neg hc, hs, if_neg hc]
        rfl

theorem pySplit_dropLast_join (sep : Char) : ∀ l : List Char,
    pyIntercalate sep ((pySplit sep l).dropLast) = before_last sep l := by
  intro l
  induction l with
  | nil => rfl
  | cons c cs ih =>
    by_cases hm : sep ∈ cs
    · rw [before_last, if_pos hm]
      have h2 := pySplit_two_le sep cs hm
      cases hs : pySplit sep cs with
      | nil => exact absurd hs (pySplit_ne_nil sep cs)
      | cons t ts =>
        cases ts with
        | nil => rw [hs] at h2; simp at h2
        | cons u us =>
          rw [hs] at ih
          by_cases hc : c = sep
          · rw [pySplit, if_pos hc, hs, hc]
            rw [List.dropLast_cons₂, List.dropLast_cons₂]
            rw [List.dropLast_cons₂] at ih
            show sep :: pyIntercalate sep (t :: (u :: us).dropLast) = sep :: before_last sep cs
            exact congrArg _ ih
          · rw [pySplit, if_neg hc, hs]
            rw [List.dropLast_cons₂, pyIntercalate_cons_cons]
            rw [List.dropLast_cons₂] at ih
            exact congrArg _ ih
    · rw [before_last, if_neg hm]
      have hs := pySplit_no_sep sep cs hm
      by_cases hc : c = sep
      · rw [pySplit, if_pos hc, hs]
        rfl
      · rw [pySplit, if_neg hc, hs]
        rfl

/-- C5 (amended): the stylesheet fetch URL is the raw href when it starts
with `http://` or `https://`; otherwise it is the page URL truncated at
its last `/` (everything strictly before the last slash; empty when the
URL has no slash), then `/`, then the raw href — plain string
concatenation, not RFC 3986 relative resolution. -/
theorem css_fetch_url_amended (pageUrl href : String) :
    css_fetch_url pageUrl href =
      if py_startswith href "http://" || py_startswith href "https://" then href
      else String.mk (before_last '/' pageUrl.toList) ++ "/" ++ href := by
  unfold css_fetch_url
  by_cases h : (py_startswith href "http://" || py_startswith href "https://") = true
  · rw [if_pos h, if_pos h]
  · rw [if_neg h, if_neg h, pySplit_dropLast_join]

/-- C5 counterexample: for the root-relative href `/style.css` on the page
`http://example.com/a/page.html`, the code fetches
`http://example.com/a//style.css`, while standard relative-URL resolution
(urljoin) yields `http://example.com/style.css`. -/
theorem css_fetch_url_not_std_resolve :
    css_fetch_url "http://example.com/a/page.html" "/style.css"
      = "http://example.com/a//style.css"
    ∧ std_resolve "http://example.com/a/page.html" "/style.css"
      = "http://example.com/style.css"
    ∧ css_fetch_url "http://example.com/a/page.html" "/style.css"
      ≠ std_resolve "http://example.com/a/page.html" "/style.css" :=
  ⟨by decide, by decide, by decide⟩

/-! ## C6, C8: image extractor -/

/-- C6: for an image element with a non-empty source attribute, the
record's type is derived from the resolved source: `data:image` for data
URIs, otherwise the substring after the last `.` lowercased (the trailing
extension), otherwise `unknown` when the source contains no `.` at all. -/
theorem img_type_extension (pageUrl : String) (resolve : String → String → String)
    (probe : String → Option (Nat × Nat)) (img : Node) (s t : String)
    (h1 : getAttr img "src" = some s) (h2 : s ≠ "") :
    (process_img pageUrl resolve probe img).map ImageRec.itype
      = some (img_type (resolve_img_src pageUrl resolve s))
    ∧ (py_startswith t "data:" = true → img_type t = "data:image")
    ∧ (py_startswith t "data:" = false → '.' ∈ t.toList →
        img_type t = (String.mk (last_seg '.' t.toList)).toLower)
    ∧ (py_startswith t "data:" = false → '.' ∉ t.toList →
        img_type t = "unknown") := by
  refine ⟨?_, ?_, ?_, ?_⟩
  · unfold process_img
    rw [h1]
    simp only [Option.getD_some]
    rw [if_neg h2]
    split
    · split <;> simp
    · simp
  · intro hd
    simp [img_type, hd]
  · intro hd hdot
    rw [img_type, if_neg (by simp [hd]), if_pos hdot, pySplit_getLastD]
  · intro hd hdot
    rw [img_type, if_neg (by simp [hd]), if_neg hdot]

/-- Witness for C6 at a concrete image element with an uppercase
extension. -/
theorem img_type_extension_witness :
    ((process_img "http://p.com" (fun _ h => h) (fun _ => none)
        (Node.elem "img" [("src", "http://x.com/photo.JPG")] [])).map ImageRec.itype
      = some (img_type (resolve_img_src "http://p.com" (fun _ h => h) "http://x.com/photo.JPG")))
    ∧ (py_startswith "http://x.com/photo.JPG" "data:" = true →
        img_type "http://x.com/photo.JPG" = "data:image")
    ∧ (py_startswith "http://x.com/photo.JPG" "data:" = false →
        '.' ∈ "http://x.com/photo.JPG".toList →
        img_type "http://x.com/photo.JPG"
          = (String.mk (last_seg '.' "http://x.com/photo.JPG".toList)).toLower)
    ∧ (py_startswith "http://x.com/photo.JPG" "data:" = false →
        '.' ∉ "http://x.com/photo.JPG".toList →
        img_type "http://x.com/photo.JPG" = "unknown") :=
  img_type_extension "http://p.com" (fun _ h => h) (fun _ => none)
    (Node.elem "img" [("src", "http://x.com/photo.JPG")] [])
    "http://x.com/photo.JPG" "http://x.com/photo.JPG" rfl (by decide)

/-- C8: an image element with no declared width and height attributes and
a non-data-URI source whose dimension probe fails keeps the
`Not specified` sentinel for both dimensions, and the extraction still
returns a record for it (no error, no abort). -/
theorem img_probe_failure_sentinel (pageUrl : String)
    (resolve : String → String → String) (probe : String → Option (Nat × Nat))
    (img : Node) (s : String) (doc : List Node)
    (hw : getAttr img "width" = none) (hh : getAttr img "height" = none)
    (hs : getAttr img "src" = some s) (hne : s ≠ "")
    (hnd : py_startswith (resolve_img_src pageUrl resolve s) "data:" = false)
    (hp : probe (resolve_img_src pageUrl resolve s) = none)
    (hdoc : img ∈ find_all_tag "img" doc) :
    process_img pageUrl resolve probe img =
      some { url := resolve_img_src pageUrl resolve s
             alt := (getAttr img "alt").getD "No alt text"
             title := (getAttr img "title").getD "No title"
             width := "Not specified"
             height := "Not specified"
             itype := img_type (resolve_img_src pageUrl resolve s) }
    ∧ { url := resolve_img_src pageUrl resolve s
        alt := (getAttr img "alt").getD "No alt text"
        title := (getAttr img "title").getD "No title"
        width := "Not specified"
        height := "Not specified"
        itype := img_type (resolve_img_src pageUrl resolve s) } ∈
        get_images pageUrl resolve probe doc := by
  have hrec : process_img pageUrl resolve probe img =
      some { url := resolve_img_src pageUrl resolve s
             alt := (getAttr img "alt").getD "No alt text"
             title := (getAttr img "title").getD "No title"
             width := "Not specified"
             height := "Not specified"
             itype := img_type (resolve_img_src pageUrl resolve s) } := by
    unfold process_img
    rw [hs]
    simp only [Option.getD_some]
    rw [if_neg hne, hw, hh]
    simp only [Option.getD_none]
    rw [if_pos (by simp [hnd]), hp]
  exact ⟨hrec, List.mem_filterMap.mpr ⟨img, hdoc, hrec⟩⟩

/-- Witness for C8: an image with an unreachable source keeps the
sentinels. -/
theorem img_probe_failure_sentinel_witness :
    process_img "http://p.com" (fun _ h => h) (fun _ => none)
        (Node.elem "img" [("src", "http://unreachable.example/x.png")] []) =
      some { url := resolve_img_src "http://p.com" (fun _ h => h)
               "http://unreachable.example/x.png"
             alt := (getAttr (Node.elem "img"
               [("src", "http://unreachable.example/x.png")] []) "alt").getD "No alt text"
             title := (getAttr (Node.elem "img"
               [("src", "http://unreachable.example/x.png")] []) "title").getD "No title"
             width := "Not specified"
             height := "Not specified"
             itype := img_type (resolve_img_src "http://p.com" (fun _ h => h)
               "http://unreachable.example/x.png") }
    ∧ { url := resolve_img_src "http://p.com" (fun _ h => h)
          "http://unreachable.example/x.png"
        alt := (getAttr (Node.elem "img"
          [("src", "http://unreachable.example/x.png")] []) "alt").getD "No alt text"
        title := (getAttr (Node.elem "img"
          [("src", "http://unreachable.example/x.png")] []) "title").getD "No title"
        width := "Not specified"
        height := "Not specified"
        itype := img_type (resolve_img_src "http://p.com" (fun _ h => h)
          "http://unreachable.example/x.png") } ∈
        get_images "http://p.com" (fun _ h => h) (fun _ => none)
          [Node.elem "img" [("src", "http://unreachable.example/x.png")] []] :=
  img_probe_failure_sentinel "http://p.com" (fun _ h => h) (fun _ => none)
    (Node.elem "img" [("src", "http://unreachable.example/x.png")] [])
    "http://unreachable.example/x.png"
    [Node.elem "img" [("src", "http://unreachable.example/x.png")] []]
    rfl rfl rfl (by decide) (by decide) rfl
    (List.mem_cons_self _ _)

/-! ## C7: performance sizes and rounding -/

theorem res_size_step_fields (pageUrl : String) (resolve : String → String → String)
    (head : String → Option Nat) (s : Sizes) (r : Node) :
    (res_size_step pageUrl resolve head s r).scripts
      = s.scripts + (if tagOf r = some "script" then resource_kb pageUrl resolve head r else 0)
    ∧ (res_size_step pageUrl resolve head s r).stylesheets
      = s.stylesheets + (if tagOf r = some "link" then resource_kb pageUrl resolve head r else 0)
    ∧ (res_size_step pageUrl resolve head s r).images
      = s.images + (if tagOf r = some "img" then resource_kb pageUrl resolve head r else 0) := by
  unfold res_size_step resource_kb
  cases he : eff_src r with
  | none => simp
  | some s0 =>
    cases hh : head (res_head_url pageUrl resolve s0) with
    | none => simp [hh]
    | some bytes =>
      by_cases h1 : tagOf r = some "script"
      · have h2 : ¬(tagOf r = some "link") := by rw [h1]; simp
        have h3 : ¬(tagOf r = some "img") := by rw [h1]; simp
        simp [hh, h1, h2, h3]
      · by_cases h2 : tagOf r = some "link"
        · have h3 : ¬(tagOf r = some "img") := by rw [h2]; simp
          simp [hh, h1, h2, h3]
        · by_cases h3 : tagOf r = some "img"
          · simp [hh, h1, h2, h3]
          · simp [hh, h1, h2, h3]

theorem cat_kb_sum_cons (pageUrl : String) (resolve : String → String → String)
    (head : String → Option Nat) (tag : String) (r : Node) (rs : List Node) :
    cat_kb_sum pageUrl resolve head tag (r :: rs)
      = (if tagOf r = some tag then resource_kb pageUrl resolve head r else 0)
        + cat_kb_sum pageUrl resolve head tag rs := by
  unfold cat_kb_sum
  by_cases h : tagOf r = some tag
  · simp [List.filter_cons, h]
  · simp [List.filter_cons, h]

theorem sizes_fold (pageUrl : String) (resolve : String → String → String)
    (head : String → Option Nat) :
    ∀ (l : List Node) (s : Sizes),
      l.foldl (res_size_step pageUrl resolve head) s =
        { scripts := s.scripts + cat_kb_sum pageUrl resolve head "script" l
          stylesheets := s.stylesheets + cat_kb_sum pageUrl resolve head "link" l
          images := s.images + cat_kb_sum pageUrl resolve head "img" l } := by
  intro l
  induction l with
  | nil =>
    intro s
    simp [cat_kb_sum]
  | cons r l ih =>
    intro s
    rw [List.foldl_cons, ih]
    obtain ⟨e1, e2, e3⟩ := res_size_step_fields pageUrl resolve head s r
    rw [cat_kb_sum_cons, cat_kb_sum_cons, cat_kb_sum_cons, e1, e2, e3]
    simp [add_assoc]

/-- C7 (amended): response_time, each per-category resource size and
total_page_weight are rounded to 2 decimals; page_size is the raw KB
value `len(content)/1024` and is NOT rounded; total_page_weight is the
2-decimal rounding of page_size plus the sum of the (already rounded)
per-category sizes. -/
theorem perf_rounding_amended (pageUrl : String)
    (resolve : String → String → String) (env : PerfEnv) (doc : List Node) :
    (analyze_performance pageUrl resolve env doc).response_time = py_round2 env.respTime
    ∧ (analyze_performance pageUrl resolve env doc).resource_sizes.scripts
        = py_round2 (cat_kb_sum pageUrl resolve env.head "script" (perf_resources doc))
    ∧ (analyze_performance pageUrl resolve env doc).resource_sizes.stylesheets
        = py_round2 (cat_kb_sum pageUrl resolve env.head "link" (perf_resources doc))
    ∧ (analyze_performance pageUrl resolve env doc).resource_sizes.images
        = py_round2 (cat_kb_sum pageUrl resolve env.head "img" (perf_resources doc))
    ∧ (analyze_performance pageUrl resolve env doc).page_size = (env.contentLen : ℚ) / 1024
    ∧ (analyze_performance pageUrl resolve env doc).total_page_weight
        = py_round2 ((analyze_performance pageUrl resolve env doc).page_size
            + ((analyze_performance pageUrl resolve env doc).resource_sizes.scripts
               + (analyze_performance pageUrl resolve env doc).resource_sizes.stylesheets
               + (analyze_performance pageUrl resolve env doc).resource_sizes.images)) := by
  have hf := sizes_fold pageUrl resolve env.head (perf_resources doc) ⟨0, 0, 0⟩
  refine ⟨rfl, ?_, ?_, ?_, rfl, rfl⟩
  · show py_round2 (((perf_resources doc).foldl
        (res_size_step pageUrl resolve env.head) ⟨0, 0, 0⟩).scripts) = _
    rw [hf]
    simp
  · show py_round2 (((perf_resources doc).foldl
        (res_size_step pageUrl resolve env.head) ⟨0, 0, 0⟩).stylesheets) = _
    rw [hf]
    simp
  · show py_round2 (((perf_resources doc).foldl
        (res_size_step pageUrl resolve env.head) ⟨0, 0, 0⟩).images) = _
    rw [hf]
    simp

/-- C7 counterexample: for a 1-byte response body with no resources,
`page_size` is `1/1024` KB, which is not a 2-decimal value — the code
never rounds `page_size`, contradicting "every size figure is rounded to
2 decimals". -/
theorem perf_page_size_unrounded :
    (analyze_performance "http://u.com" (fun _ h => h)
        { contentLen := 1, respTime := 0, status := 200, headers := [],
          encoding := none, head := fun _ => none } []).page_size
      ≠ py_round2 ((analyze_performance "http://u.com" (fun _ h => h)
        { contentLen := 1, respTime := 0, status := 200, headers := [],
          encoding := none, head := fun _ => none } []).page_size) := by
  have h1 : (analyze_performance "http://u.com" (fun _ h => h)
      { contentLen := 1, respTime := 0, status := 200, headers := [],
        encoding := none, head := fun _ => none } []).page_size = (1 : ℚ) / 1024 := by
    show ((1 : ℕ) : ℚ) / 1024 = (1 : ℚ) / 1024
    norm_num
  rw [h1]
  have harg : ((1 : ℚ) / 1024) * 100 = 25 / 256 := by norm_num
  have hfl : ⌊(25 / 256 : ℚ)⌋ = 0 := by
    rw [Int.floor_eq_iff]
    norm_num
  have h2 : py_round2 ((1 : ℚ) / 1024) = 0 := by
    unfold py_round2 round_half_even
    rw [harg, hfl, if_pos]
    · norm_num
    · norm_num
  rw [h2]
  norm_num

/-! ## C9, C10: SEO analyzer -/

theorem countP_bool_partition (p : α → Bool) :
    ∀ l : List α, l.countP p + l.countP (fun a => !p a) = l.length := by
  intro l
  induction l with
  | nil => simp
  | cons a l ih =>
    rw [List.countP_cons, List.countP_cons]
    cases h : p a <;> simp [h] <;> omega

theorem seo_link_step_counts (pageUrl : String) (c : LinkCounts) (a : Node) :
    (seo_link_step pageUrl c a).internal
      = c.internal + (if seo_link_internal pageUrl a then 1 else 0)
    ∧ (seo_link_step pageUrl c a).external
      = c.external + (if seo_link_internal pageUrl a then 0 else 1) := by
  unfold seo_link_step seo_link_internal
  by_cases h1 : (py_startswith ((getAttr a "href").getD "") "http://"
      || py_startswith ((getAttr a "href").getD "") "https://") = true
  · by_cases h2 : pyIn pageUrl ((getAttr a "href").getD "") = true
    · cases h3 : rel_nofollow a <;> simp [h1, h2, h3]
    · cases h3 : rel_nofollow a <;> simp [h1, h2, h3]
  · cases h3 : rel_nofollow a <;> simp [h1, h3]

theorem seo_fold_counts (pageUrl : String) :
    ∀ (l : List Node) (c : LinkCounts),
      (l.foldl (seo_link_step pageUrl) c).internal
        = c.internal + l.countP (seo_link_internal pageUrl)
      ∧ (l.foldl (seo_link_step pageUrl) c).external
        = c.external + l.countP (fun a => !seo_link_internal pageUrl a) := by
  intro l
  induction l with
  | nil => intro c; simp
  | cons a l ih =>
    intro c
    rw [List.foldl_cons]
    obtain ⟨e1, e2⟩ := seo_link_step_counts pageUrl c a
    obtain ⟨f1, f2⟩ := ih (seo_link_step pageUrl c a)
    rw [f1, f2, e1, e2, List.countP_cons, List.countP_cons]
    constructor
    · cases h : seo_link_internal pageUrl a <;> simp [h] <;> omega
    · cases h : seo_link_internal pageUrl a <;> simp [h] <;> omega

/-- C9: a fetched document whose tree contains no `<html>` element makes
the SEO analyzer fail with its wrapped error (the declared-language lookup
dereferences the missing root element) instead of returning a record. -/
theorem seo_missing_html_errors (pageUrl : String)
    (jsonParse : String → Option String) (doc : List Node)
    (h : find_all_tag "html" doc = []) :
    analyze_seo pageUrl jsonParse doc = .error seo_error_msg := by
  have h' : (elemsL doc).find? (fun n =>
      match tagOf n with
      | some t => t == "html"
      | none => false) = none := by
    rw [List.find?_eq_none]
    intro a ha
    unfold find_all_tag at h
    have := List.filter_eq_nil_iff.mp h a ha
    simpa using this
  unfold analyze_seo
  rw [h']

/-- Witness for C9: a document whose only root is a `<p>` element. -/
theorem seo_missing_html_errors_witness :
    find_all_tag "html" [Node.elem "p" [] [Node.text "x"]] = []
    ∧ analyze_seo "http://u.com" (fun _ => none) [Node.elem "p" [] [Node.text "x"]]
        = .error seo_error_msg :=
  ⟨rfl, seo_missing_html_errors "http://u.com" (fun _ => none)
      [Node.elem "p" [] [Node.text "x"]] rfl⟩

/-- C10: in the SEO analyzer every anchor is counted in exactly one of the
internal or external counts, so internal + external equals the number of
anchor elements; an anchor with no href attribute at all is classified
internal. -/
theorem seo_link_partition (pageUrl : String) (jsonParse : String → Option String)
    (doc : List Node) (sd : SeoData) (a : Node)
    (h : analyze_seo pageUrl jsonParse doc = .ok sd)
    (hnone : getAttr a "href" = none) :
    sd.links.internal + sd.links.external = (find_all_tag "a" doc).length
    ∧ sd.links.internal = (find_all_tag "a" doc).countP (seo_link_internal pageUrl)
    ∧ seo_link_internal pageUrl a = true := by
  have hlinks : sd.links
      = (find_all_tag "a" doc).foldl (seo_link_step pageUrl) ⟨0, 0, 0⟩ := by
    unfold analyze_seo at h
    cases hf : (elemsL doc).find? (fun n =>
        match tagOf n with
        | some t => t == "html"
        | none => false) with
    | none =>
      rw [hf] at h
      exact absurd h (by simp)
    | some htmlEl =>
      rw [hf] at h
      injection h with h
      rw [← h]
  obtain ⟨hi, he⟩ := seo_fold_counts pageUrl (find_all_tag "a" doc) ⟨0, 0, 0⟩
  have hstarts : (py_startswith "" "http://" || py_startswith "" "https://") = false := by
    decide
  refine ⟨?_, ?_, ?_⟩
  · rw [hlinks, hi, he]
    simp only [Nat.zero_add]
    exact countP_bool_partition _ _
  · rw [hlinks, hi]
    simp
  · unfold seo_link_internal
    rw [hnone]
    simp only [Option.getD_none, hstarts]
    simp

/-- Witness for C10 on `c10_doc` (one anchor with no href, one external
anchor). -/
theorem seo_link_partition_witness :
    (analyze_seo "http://mysite.com" (fun _ => none) c10_doc = .ok c10_sd)
    ∧ (getAttr (Node.elem "a" [] [Node.text "x"]) "href" = none)
    ∧ (c10_sd.links.internal + c10_sd.links.external
          = (find_all_tag "a" c10_doc).length
       ∧ c10_sd.links.internal
          = (find_all_tag "a" c10_doc).countP (seo_link_internal "http://mysite.com")
       ∧ seo_link_internal "http://mysite.com" (Node.elem "a" [] [Node.text "x"]) = true) :=
  ⟨rfl, rfl,
    seo_link_partition "http://mysite.com" (fun _ => none) c10_doc c10_sd
      (Node.elem "a" [] [Node.text "x"]) rfl rfl⟩
